import Mathlib

/-!
Verification development for the `gelf` encoding core: a shallow embedding
of `src/logger.rs` and `src/message/compression.rs` together with the
parts of the data model they depend on (`Message`, `WireMessage`, the
error kinds), which live outside the provided sources and are therefore
modelled from the specification.

External collaborators (the hostname provider, the gzip/zlib stream
encoders of `libflate`, the `log` crate's records) are abstracted as
parameters: the embedding of each repository function mirrors exactly how
the Rust code branches on their results.
-/

/-- Severity levels, syslog convention, bound to codes 0..7.
Modelled from the spec: the `Level` enumeration lives outside the
provided sources. -/
inductive Level where
  | emergency
  | alert
  | critical
  | error
  | warning
  | notice
  | informational
  | debug
deriving DecidableEq, Repr

/-- Numeric syslog severity code of a level (0 = most severe). -/
def Level.toCode : Level → Nat
  | .emergency => 0
  | .alert => 1
  | .critical => 2
  | .error => 3
  | .warning => 4
  | .notice => 5
  | .informational => 6
  | .debug => 7

/-- Error kinds of the crate (`errors::ErrorKind`). The constructors used
by the provided sources are `CompressMessageFailed` (carrying the
algorithm name) and `LoggerCreateFailed`; the JSON-encoding failure of
`WireMessage::to_gelf` is modelled from the spec as `encodingError`. -/
inductive ErrorKind where
  | encodingError (msg : String)
  | compressMessageFailed (alg : String)
  | loggerCreateFailed (msg : String)
deriving DecidableEq, Repr

/-- A user-facing log event.
Modelled from the spec: `Message` lives outside the provided sources;
fields are `short_message` (required), optional `full_message`, a `Level`
(default Informational), a timestamp in Unix seconds, and a key-unique
metadata mapping (represented as an association list). -/
structure Message where
  short_message : String
  full_message : Option String := none
  level : Level := .informational
  timestamp : Nat := 0
  metadata : List (String × String) := []
deriving DecidableEq, Repr

/-- Lookup in an association list (first binding of the key wins),
the specification of `HashMap::get`. -/
def lookupAssoc (k : String) : List (String × String) → Option String
  | [] => none
  | p :: rest => if p.1 = k then some p.2 else lookupAssoc k rest

/-- Insert into an association list, overwriting an existing binding of
the key in place, the specification of `HashMap::insert`. -/
def insertAssoc (k v : String) : List (String × String) → List (String × String)
  | [] => [(k, v)]
  | p :: rest => if p.1 = k then (k, v) :: rest else p :: insertAssoc k v rest

/-- The `Logger` struct of `src/logger.rs`: hostname, boxed backend
(abstracted as a type parameter `B`), and the default-metadata mapping. -/
structure Logger (B : Type) where
  hostname : String
  backend : B
  default_metadata : List (String × String)

/-- The GELF-normalized projection of a `Message`.
Modelled from the spec: `WireMessage` lives outside the provided sources;
`WireMessage::new(msg, &logger)` combines the message with the logger's
hostname and default metadata. -/
structure WireMessage where
  host : String
  message : Message
  default_metadata : List (String × String)
deriving DecidableEq, Repr

/-- Constructor `WireMessage::new(msg, &logger)`.
Modelled from the spec: captures the logger's hostname and default
metadata together with the message. -/
def WireMessage.new {B : Type} (msg : Message) (l : Logger B) : WireMessage :=
  { host := l.hostname, message := msg, default_metadata := l.default_metadata }

/-- Merged additional metadata of a wire message.
Modelled from the spec: each default-metadata key is staged unless the
message's own metadata already has it; message keys always win. Defaults
are staged first, then the message's entries. -/
def WireMessage.mergedMetadata (w : WireMessage) : List (String × String) :=
  (w.default_metadata.filter fun p => (lookupAssoc p.1 w.message.metadata).isNone)
    ++ w.message.metadata

/-- The reserved GELF field names, which additional metadata must not
collide with after removing the underscore prefix. -/
def reservedNames : List String :=
  ["version", "host", "short_message", "full_message", "timestamp", "level"]

/-- Minimal JSON string escaping (backslash and double quote). -/
def jsonEscape (s : String) : String :=
  String.join (s.toList.map fun c =>
    if c = Char.ofNat 34 then "\\\""
    else if c = Char.ofNat 92 then "\\\\"
    else String.singleton c)

/-- Render a JSON string literal. -/
def jstr (s : String) : String := "\"" ++ jsonEscape s ++ "\""

/-- Render the staged field set as a single flat JSON object.
Modelled from the spec: fixed `version` "1.1", then `host`,
`short_message`, optional `full_message`, `timestamp`, the numeric
`level` code, then every merged additional field under an underscore
prefix. -/
def renderGelf (w : WireMessage) : String :=
  "\x7b" ++ jstr "version" ++ ":" ++ jstr "1.1"
    ++ "," ++ jstr "host" ++ ":" ++ jstr w.host
    ++ "," ++ jstr "short_message" ++ ":" ++ jstr w.message.short_message
    ++ (match w.message.full_message with
        | some fm => "," ++ jstr "full_message" ++ ":" ++ jstr fm
        | none => "")
    ++ "," ++ jstr "timestamp" ++ ":" ++ toString w.message.timestamp
    ++ "," ++ jstr "level" ++ ":" ++ toString w.message.level.toCode
    ++ String.join (w.mergedMetadata.map fun p =>
        "," ++ jstr ("_" ++ p.1) ++ ":" ++ jstr p.2)
    ++ "\x7d"

/-- Serialize a wire message to canonical GELF JSON.
Modelled from the spec: `WireMessage::to_gelf` lives outside the
provided sources; it rejects any staged additional key that collides
with a reserved field name after prefix removal (an `EncodingError`),
and otherwise renders the flat JSON object. -/
def WireMessage.to_gelf (w : WireMessage) : Except ErrorKind String :=
  if w.mergedMetadata.any (fun p => reservedNames.contains p.1) then
    .error (.encodingError "reserved field name collision")
  else
    .ok (renderGelf w)

/-- UTF-8 bytes of a string (`String::into_bytes`), as plain naturals. -/
def toBytes (s : String) : List Nat :=
  s.toUTF8.toList.map (fun b => b.toNat)

/-- The `MessageCompression` enumeration of
`src/message/compression.rs`. -/
inductive MessageCompression where
  | none
  | gzip
  | zlib
deriving DecidableEq, Repr

/-- `MessageCompression::default` returns Gzip
(src/message/compression.rs lines 19-21). -/
def MessageCompression.default : MessageCompression := .gzip

/-- Abstraction of an external stream encoder (libflate's gzip or zlib):
`encode` stands for the `Encoder::new` / `io::copy` / `finish` chain and
returns either the compressed bytes or an underlying I/O error; `decode`
is the corresponding decompressor. -/
structure Codec where
  encode : List Nat → Except String (List Nat)
  decode : List Nat → Option (List Nat)

/-- A codec is round-tripping when decoding any successful encoding
recovers the input bytes. -/
def Codec.RoundTrip (c : Codec) : Prop :=
  ∀ bs out, c.encode bs = .ok out → c.decode out = some bs

/-- `MessageCompression::compress` (src/message/compression.rs lines
24-46), parametrized by the external gzip and zlib encoders: serialize
via `to_gelf` first (the `?` operator propagates its error), then branch
on the variant; an encoder failure is wrapped into
`CompressMessageFailed` carrying the algorithm name. -/
def MessageCompression.compress (gz zl : Codec) (self : MessageCompression)
    (message : WireMessage) : Except ErrorKind (List Nat) :=
  match message.to_gelf with
  | .error e => .error e
  | .ok json =>
    match self with
    | .none => .ok (toBytes json)
    | .gzip =>
      match gz.encode (toBytes json) with
      | .ok out => .ok out
      | .error _ => .error (.compressMessageFailed "gzip")
    | .zlib =>
      match zl.encode (toBytes json) with
      | .ok out => .ok out
      | .error _ => .error (.compressMessageFailed "zlib")

/-- Decompression matching each algorithm: the identity for None, the
codec's decoder for Gzip and Zlib. -/
def decompressFor (gz zl : Codec) : MessageCompression → List Nat → Option (List Nat)
  | .none, bs => some bs
  | .gzip, bs => gz.decode bs
  | .zlib, bs => zl.decode bs

/-- `Logger::new_with_hostname` (src/logger.rs lines 74-80): store the
hostname, the backend, and an empty default-metadata map. Always
succeeds (it is total and returns a `Logger` directly, not a Result). -/
def Logger.new_with_hostname {B : Type} (backend : B) (hostname : String) : Logger B :=
  { hostname := hostname, backend := backend, default_metadata := [] }

/-- `Logger::new` (src/logger.rs lines 64-68), parametrized by the
result of the external hostname provider (`hostname::get_hostname()`):
map a detected hostname through `new_with_hostname`, otherwise fail with
`LoggerCreateFailed`. -/
def Logger.new {B : Type} (detect : Option String) (backend : B) :
    Except ErrorKind (Logger B) :=
  match detect.map (fun hostname => Logger.new_with_hostname backend hostname) with
  | some l => .ok l
  | none => .error (.loggerCreateFailed "Failed to determine local hostname")

/-- `Logger::log_message` (src/logger.rs lines 103-105): call
`backend.log(WireMessage::new(msg, &self))`. The logger is taken by
shared reference, so the state component of the result is the unchanged
logger; the second component is the list of wire messages handed to the
backend during the call. -/
def Logger.log_message {B : Type} (l : Logger B) (msg : Message) :
    Logger B × List WireMessage :=
  (l, [WireMessage.new msg l])

/-- `Logger::set_hostname` (src/logger.rs lines 113-116). -/
def Logger.set_hostname {B : Type} (l : Logger B) (hostname : String) : Logger B :=
  { l with hostname := hostname }

/-- `Logger::add_default_metadata` (src/logger.rs lines 138-141):
`HashMap::insert`, overwriting an existing binding of the key. -/
def Logger.add_default_metadata {B : Type} (l : Logger B) (key value : String) :
    Logger B :=
  { l with default_metadata := insertAssoc key value l.default_metadata }

/-- Metadata of a `log`-crate record (external collaborator), reduced to
what the adapter consults. -/
structure LogMetadata where
  levelCode : Nat
  target : String
deriving DecidableEq, Repr

/-- A `log`-crate record (external collaborator). -/
structure LogRecord where
  metadata : LogMetadata
  args : String
deriving DecidableEq, Repr

/-- Conversion of a generic log record into a `Message`
(`From<&LogRecord> for Message`). Modelled from the spec: maps the
generic facility's severity and message text into this system's
`Level`/`Message` types. -/
def Message.fromRecord (r : LogRecord) : Message :=
  { short_message := r.args,
    level :=
      match r.metadata.levelCode with
      | 1 => .error
      | 2 => .warning
      | 3 => .informational
      | 4 => .debug
      | _ => .debug }

/-- `log::Log::enabled` for `Logger` (src/logger.rs lines 149-153):
always true, the logger discards no level by itself. -/
def Logger.enabled {B : Type} (_l : Logger B) (_md : LogMetadata) : Bool :=
  true

/-- `log::Log::log` for `Logger` (src/logger.rs lines 158-164): the
guard `if !self.enabled(record.metadata()) { () }` has no effect, then
the record is converted and forwarded to `log_message`. -/
def Logger.logRecord {B : Type} (l : Logger B) (record : LogRecord) :
    Logger B × List WireMessage :=
  let _guard := if !(l.enabled record.metadata) then () else ()
  l.log_message (Message.fromRecord record)

/-! Sample values used by the witnesses. -/

/-- A minimal message, only the short text set. -/
def sampleMessage : Message := { short_message := "hello" }

/-- A logger over a trivial backend with explicit hostname. -/
def sampleLogger : Logger Unit := Logger.new_with_hostname () "myhost"

/-- The wire message of the sample message under the sample logger. -/
def sampleWire : WireMessage := WireMessage.new sampleMessage sampleLogger

/-- A message whose metadata collides with the reserved name `host`. -/
def badMessage : Message :=
  { short_message := "hello", metadata := [("host", "evil")] }

/-- A wire message whose serialization fails on the reserved-name
collision. -/
def badWire : WireMessage := WireMessage.new badMessage sampleLogger

/-- The identity codec: encoding returns the bytes unchanged and always
succeeds; decoding is the identity. -/
def idCodec : Codec :=
  { encode := fun bs => .ok bs, decode := fun bs => some bs }

/-- A codec whose encoder always fails with an I/O error. -/
def failCodec : Codec :=
  { encode := fun _ => .error "io failure", decode := fun _ => Option.none }

theorem idCodec_roundTrip : idCodec.RoundTrip := by
  intro bs out h
  simp only [idCodec, Except.ok.injEq] at h
  simp [idCodec, h]

/-! Theorems settling the claims. -/

/-- Claim C8: `MessageCompression::default()` returns the Gzip variant. -/
theorem messageCompression_default_is_gzip :
    MessageCompression.default = MessageCompression.gzip := rfl

/-- Claim C5: `Logger::new_with_hostname` always succeeds (it is a total
function into `Logger`), and the `hostname()` accessor on the result
returns exactly the supplied hostname string. -/
theorem new_with_hostname_sets_hostname {B : Type} (backend : B) (hostname : String) :
    (Logger.new_with_hostname backend hostname).hostname = hostname := rfl

/-- Claim C3: `log_message` leaves the logger's hostname, default
metadata, and backend unchanged, and hands the backend exactly one wire
message, built by `WireMessage::new` from the message and the logger. -/
theorem log_message_frame {B : Type} (l : Logger B) (msg : Message) :
    (l.log_message msg).1.hostname = l.hostname
    ∧ (l.log_message msg).1.default_metadata = l.default_metadata
    ∧ (l.log_message msg).1.backend = l.backend
    ∧ (l.log_message msg).2 = [WireMessage.new msg l] :=
  ⟨rfl, rfl, rfl, rfl⟩

/-- Claim C7: the `log`-crate adapter filters nothing: `enabled` is true
for every metadata, and `log` forwards every record, behaving exactly as
`log_message` on the record's conversion. -/
theorem log_adapter_no_filtering {B : Type} (l : Logger B) :
    (∀ md : LogMetadata, l.enabled md = true)
    ∧ (∀ record : LogRecord,
        l.logRecord record = l.log_message (Message.fromRecord record)) :=
  ⟨fun _ => rfl, fun _ => rfl⟩

/-! Association-list lemmas specifying `HashMap::insert`. -/

theorem insertAssoc_cons (k v : String) (p : String × String)
    (rest : List (String × String)) :
    insertAssoc k v (p :: rest)
      = if p.1 = k then (k, v) :: rest else p :: insertAssoc k v rest := rfl

theorem lookup_insertAssoc_self (k v : String) (m : List (String × String)) :
    lookupAssoc k (insertAssoc k v m) = some v := by
  induction m with
  | nil => simp [insertAssoc, lookupAssoc]
  | cons p rest ih =>
    by_cases hpk : p.1 = k
    · simp [insertAssoc, hpk, lookupAssoc]
    · simp [insertAssoc, hpk, lookupAssoc, ih]

theorem lookup_insertAssoc_ne (k v k' : String) (hk : k' ≠ k)
    (m : List (String × String)) :
    lookupAssoc k' (insertAssoc k v m) = lookupAssoc k' m := by
  induction m with
  | nil => simp [insertAssoc, lookupAssoc, Ne.symm hk]
  | cons p rest ih =>
    by_cases hpk : p.1 = k
    · simp [insertAssoc, hpk, lookupAssoc, Ne.symm hk]
    · simp [insertAssoc, hpk, lookupAssoc, ih]

theorem mem_keys_insertAssoc (a k v : String) (m : List (String × String)) :
    a ∈ (insertAssoc k v m).map Prod.fst ↔ a = k ∨ a ∈ m.map Prod.fst := by
  induction m with
  | nil => simp [insertAssoc]
  | cons p rest ih =>
    by_cases hpk : p.1 = k
    · rw [insertAssoc_cons, if_pos hpk, List.map_cons, List.map_cons, hpk]
      simp only [List.mem_cons]
      tauto
    · rw [insertAssoc_cons, if_neg hpk, List.map_cons, List.map_cons]
      simp only [List.mem_cons, ih]
      tauto

theorem nodup_keys_insertAssoc (k v : String) (m : List (String × String))
    (h : (m.map Prod.fst).Nodup) :
    ((insertAssoc k v m).map Prod.fst).Nodup := by
  induction m with
  | nil => simp [insertAssoc]
  | cons p rest ih =>
    rw [List.map_cons, List.nodup_cons] at h
    by_cases hpk : p.1 = k
    · rw [insertAssoc_cons, if_pos hpk, List.map_cons, List.nodup_cons]
      exact ⟨hpk ▸ h.1, h.2⟩
    · rw [insertAssoc_cons, if_neg hpk, List.map_cons, List.nodup_cons]
      refine ⟨fun hc => ?_, ih h.2⟩
      rw [mem_keys_insertAssoc] at hc
      exact hc.elim (fun he => hpk he) (fun he => h.1 he)

/-- Claim C6: `add_default_metadata(key, value)` makes the default
metadata map `key` to `value`, overwriting an existing binding; every
other key's binding is unchanged, and key uniqueness is preserved. -/
theorem add_default_metadata_spec {B : Type} (l : Logger B) (key value : String) :
    lookupAssoc key (l.add_default_metadata key value).default_metadata = some value
    ∧ (∀ k, k ≠ key →
        lookupAssoc k (l.add_default_metadata key value).default_metadata
          = lookupAssoc k l.default_metadata)
    ∧ ((l.default_metadata.map Prod.fst).Nodup →
        (((l.add_default_metadata key value).default_metadata).map Prod.fst).Nodup) :=
  ⟨lookup_insertAssoc_self key value l.default_metadata,
   fun k hk => lookup_insertAssoc_ne key value k hk l.default_metadata,
   fun h => nodup_keys_insertAssoc key value l.default_metadata h⟩

/-- Witness for C6 at a concrete logger, key, and value. -/
theorem add_default_metadata_spec_witness :
    "other" ≠ "facility"
    ∧ (sampleLogger.default_metadata.map Prod.fst).Nodup
    ∧ lookupAssoc "facility"
        (sampleLogger.add_default_metadata "facility" "b").default_metadata = some "b"
    ∧ lookupAssoc "other"
        (sampleLogger.add_default_metadata "facility" "b").default_metadata
      = lookupAssoc "other" sampleLogger.default_metadata
    ∧ (((sampleLogger.add_default_metadata "facility" "b").default_metadata).map
        Prod.fst).Nodup := by
  have h := add_default_metadata_spec sampleLogger "facility" "b"
  exact ⟨by decide, by decide, h.1, h.2.1 "other" (by decide), h.2.2 (by decide)⟩

/-- Claim C4: `Logger::new(backend)` fails exactly when hostname
detection returns nothing; on a detected hostname it succeeds and equals
`new_with_hostname` at the detected value, whose hostname it is. -/
theorem logger_new_spec {B : Type} (backend : B) :
    (∀ (d : Option String) (l : Logger B), Logger.new d backend = .ok l →
        ∃ h, d = some h ∧ l = Logger.new_with_hostname backend h ∧ l.hostname = h)
    ∧ Logger.new (Option.none) backend
        = .error (.loggerCreateFailed "Failed to determine local hostname")
    ∧ (∀ h : String,
        Logger.new (some h) backend = .ok (Logger.new_with_hostname backend h)) := by
  refine ⟨?_, rfl, fun h => rfl⟩
  intro d l hl
  cases d with
  | none => simp [Logger.new] at hl
  | some h =>
    have h3 : Logger.new_with_hostname backend h = l := Except.ok.inj hl
    exact ⟨h, rfl, h3.symm, by rw [← h3]; rfl⟩

/-- Witness for C4 at the unit backend. -/
theorem logger_new_spec_witness :
    Logger.new (some "myhost") () = .ok (Logger.new_with_hostname () "myhost")
    ∧ Logger.new (Option.none : Option String) ()
        = .error (.loggerCreateFailed "Failed to determine local hostname")
    ∧ ∃ h, (some "myhost" : Option String) = some h
        ∧ Logger.new_with_hostname () "myhost" = Logger.new_with_hostname () h
        ∧ (Logger.new_with_hostname () "myhost").hostname = h := by
  have hsp := @logger_new_spec Unit ()
  exact ⟨hsp.2.2 "myhost", hsp.2.1,
    hsp.1 (some "myhost") (Logger.new_with_hostname () "myhost") (hsp.2.2 "myhost")⟩

/-- Claim C9: a freshly constructed logger (via `new_with_hostname`, and
hence via `new`) starts with an empty default-metadata mapping. -/
theorem fresh_logger_empty_metadata {B : Type} (backend : B) :
    (∀ hostname, (Logger.new_with_hostname backend hostname).default_metadata = [])
    ∧ (∀ (d : Option String) (l : Logger B), Logger.new d backend = .ok l →
        l.default_metadata = []) := by
  refine ⟨fun _ => rfl, ?_⟩
  intro d l hl
  cases d with
  | none => simp [Logger.new] at hl
  | some h =>
    have h3 : Logger.new_with_hostname backend h = l := Except.ok.inj hl
    rw [← h3]; rfl

/-- Witness for C9 at the unit backend. -/
theorem fresh_logger_empty_metadata_witness :
    Logger.new (some "myhost") () = .ok (Logger.new_with_hostname () "myhost")
    ∧ (Logger.new_with_hostname () "myhost").default_metadata = ([] : List (String × String)) := by
  have hsp := @fresh_logger_empty_metadata Unit ()
  exact ⟨rfl, hsp.2 (some "myhost") (Logger.new_with_hostname () "myhost") rfl⟩

/-- Claim C1: for every wire message whose serialization succeeds and for
every algorithm, decompressing the bytes returned by `compress` (the
identity for None) yields exactly the UTF-8 bytes of the `to_gelf`
output; in particular the None variant returns the raw JSON bytes
unchanged. Stated for any pair of external codecs whose decoders invert
their encoders, which gzip and zlib satisfy. -/
theorem compress_roundtrip (gz zl : Codec) (hgz : gz.RoundTrip) (hzl : zl.RoundTrip)
    (w : WireMessage) (s : String) (hs : w.to_gelf = .ok s) :
    (∀ alg out, MessageCompression.compress gz zl alg w = .ok out →
        decompressFor gz zl alg out = some (toBytes s))
    ∧ MessageCompression.compress gz zl .none w = .ok (toBytes s) := by
  constructor
  · intro alg out hout
    cases alg with
    | none =>
      have hc : MessageCompression.compress gz zl .none w = .ok (toBytes s) := by
        unfold MessageCompression.compress
        rw [hs]
      rw [hc] at hout
      rw [← Except.ok.inj hout]
      rfl
    | gzip =>
      have hc : MessageCompression.compress gz zl .gzip w
          = (match gz.encode (toBytes s) with
             | .ok o => Except.ok o
             | .error _ => Except.error (ErrorKind.compressMessageFailed "gzip")) := by
        unfold MessageCompression.compress
        rw [hs]
      rw [hc] at hout
      cases henc : gz.encode (toBytes s) with
      | ok o =>
        rw [henc] at hout
        show gz.decode out = some (toBytes s)
        exact hgz (toBytes s) out ((Except.ok.inj hout) ▸ henc)
      | error e =>
        rw [henc] at hout
        exact Except.noConfusion hout
    | zlib =>
      have hc : MessageCompression.compress gz zl .zlib w
          = (match zl.encode (toBytes s) with
             | .ok o => Except.ok o
             | .error _ => Except.error (ErrorKind.compressMessageFailed "zlib")) := by
        unfold MessageCompression.compress
        rw [hs]
      rw [hc] at hout
      cases henc : zl.encode (toBytes s) with
      | ok o =>
        rw [henc] at hout
        show zl.decode out = some (toBytes s)
        exact hzl (toBytes s) out ((Except.ok.inj hout) ▸ henc)
      | error e =>
        rw [henc] at hout
        exact Except.noConfusion hout
  · unfold MessageCompression.compress
    rw [hs]

/-- Witness for C1 at the identity codec and a concrete wire message. -/
theorem compress_roundtrip_witness :
    idCodec.RoundTrip
    ∧ sampleWire.to_gelf = .ok (renderGelf sampleWire)
    ∧ ((∀ alg out,
          MessageCompression.compress idCodec idCodec alg sampleWire = .ok out →
          decompressFor idCodec idCodec alg out
            = some (toBytes (renderGelf sampleWire)))
        ∧ MessageCompression.compress idCodec idCodec .none sampleWire
            = .ok (toBytes (renderGelf sampleWire))) :=
  ⟨idCodec_roundTrip, rfl,
   compress_roundtrip idCodec idCodec idCodec_roundTrip idCodec_roundTrip
     sampleWire (renderGelf sampleWire) rfl⟩

/-- Claim C2: serialization is attempted before compression. A `to_gelf`
failure propagates unchanged for every variant and for every pair of
codecs (so no encoder is consulted), the `to_gelf` error is always an
EncodingError, and a gzip or zlib encoder failure yields
`CompressMessageFailed` carrying the algorithm name. -/
theorem compress_error_paths :
    (∀ (w : WireMessage) (e : ErrorKind), w.to_gelf = .error e →
        ∀ (gz zl : Codec) (alg : MessageCompression),
          MessageCompression.compress gz zl alg w = .error e)
    ∧ (∀ (w : WireMessage) (e : ErrorKind), w.to_gelf = .error e →
        ∃ m, e = ErrorKind.encodingError m)
    ∧ (∀ (gz zl : Codec) (w : WireMessage) (s : String), w.to_gelf = .ok s →
        ∀ err, gz.encode (toBytes s) = .error err →
          MessageCompression.compress gz zl .gzip w
            = .error (.compressMessageFailed "gzip"))
    ∧ (∀ (gz zl : Codec) (w : WireMessage) (s : String), w.to_gelf = .ok s →
        ∀ err, zl.encode (toBytes s) = .error err →
          MessageCompression.compress gz zl .zlib w
            = .error (.compressMessageFailed "zlib")) := by
  refine ⟨?_, ?_, ?_, ?_⟩
  · intro w e he gz zl alg
    unfold MessageCompression.compress
    rw [he]
  · intro w e he
    unfold WireMessage.to_gelf at he
    by_cases hc : w.mergedMetadata.any (fun p => reservedNames.contains p.1)
    · rw [if_pos hc] at he
      exact ⟨"reserved field name collision", (Except.error.inj he).symm⟩
    · rw [if_neg hc] at he
      exact absurd he (by simp)
  · intro gz zl w s hs err herr
    have hc : MessageCompression.compress gz zl .gzip w
        = (match gz.encode (toBytes s) with
           | .ok o => Except.ok o
           | .error _ => Except.error (ErrorKind.compressMessageFailed "gzip")) := by
      unfold MessageCompression.compress
      rw [hs]
    rw [hc, herr]
  · intro gz zl w s hs err herr
    have hc : MessageCompression.compress gz zl .zlib w
        = (match zl.encode (toBytes s) with
           | .ok o => Except.ok o
           | .error _ => Except.error (ErrorKind.compressMessageFailed "zlib")) := by
      unfold MessageCompression.compress
      rw [hs]
    rw [hc, herr]

/-- Witness for C2: a wire message with a reserved-name collision and a
failing codec exercise every error path at concrete inputs. -/
theorem compress_error_paths_witness :
    (badWire.to_gelf = .error (.encodingError "reserved field name collision")
      ∧ MessageCompression.compress failCodec failCodec .gzip badWire
          = .error (.encodingError "reserved field name collision")
      ∧ ∃ m, ErrorKind.encodingError "reserved field name collision"
          = ErrorKind.encodingError m)
    ∧ (sampleWire.to_gelf = .ok (renderGelf sampleWire)
      ∧ failCodec.encode (toBytes (renderGelf sampleWire)) = .error "io failure"
      ∧ MessageCompression.compress failCodec failCodec .gzip sampleWire
          = .error (.compressMessageFailed "gzip")
      ∧ MessageCompression.compress failCodec failCodec .zlib sampleWire
          = .error (.compressMessageFailed "zlib")) := by
  refine ⟨⟨rfl, ?_, ?_⟩, rfl, rfl, ?_, ?_⟩
  · exact compress_error_paths.1 badWire
      (.encodingError "reserved field name collision") rfl failCodec failCodec .gzip
  · exact compress_error_paths.2.1 badWire
      (.encodingError "reserved field name collision") rfl
  · exact compress_error_paths.2.2.1 failCodec failCodec sampleWire
      (renderGelf sampleWire) rfl "io failure" rfl
  · exact compress_error_paths.2.2.2 failCodec failCodec sampleWire
      (renderGelf sampleWire) rfl "io failure" rfl

/-- Claim C10: for the None variant, `compress` succeeds whenever
`to_gelf` succeeds (the CompressionError branch is unreachable), and it
fails only with the serialization error itself, regardless of the
codecs. -/
theorem compress_none_safe (gz zl : Codec) (w : WireMessage) :
    (∀ s, w.to_gelf = .ok s →
        MessageCompression.compress gz zl .none w = .ok (toBytes s))
    ∧ (∀ e, MessageCompression.compress gz zl .none w = .error e →
        w.to_gelf = .error e) := by
  constructor
  · intro s hs
    unfold MessageCompression.compress
    rw [hs]
  · intro e he
    unfold MessageCompression.compress at he
    cases hg : w.to_gelf with
    | error e2 =>
      rw [hg] at he
      rw [Except.error.inj he]
    | ok s =>
      rw [hg] at he
      exact absurd he (by simp)

/-- Witness for C10 at concrete wire messages covering both branches. -/
theorem compress_none_safe_witness :
    (sampleWire.to_gelf = .ok (renderGelf sampleWire)
      ∧ MessageCompression.compress idCodec idCodec .none sampleWire
          = .ok (toBytes (renderGelf sampleWire)))
    ∧ (MessageCompression.compress idCodec idCodec .none badWire
          = .error (.encodingError "reserved field name collision")
      ∧ badWire.to_gelf
          = .error (.encodingError "reserved field name collision")) :=
  ⟨⟨rfl, (compress_none_safe idCodec idCodec sampleWire).1 (renderGelf sampleWire) rfl⟩,
   ⟨rfl, (compress_none_safe idCodec idCodec badWire).2
      (.encodingError "reserved field name collision") rfl⟩⟩
